import Mathlib

/-!
Verification of the joeml compiler (parser grammar actions and JavaScript
code generator) against its specification.

The AST model follows `src/types.ts` and the runtime objects built by the
semantic actions of `src/grammar/grammar.jml.pegjs`.  The generator is a
shallow embedding of `src/generator.ts`: every emitted string reproduces the
source's template literals character for character.  JavaScript exceptions
(the generator's `throw new Error('unhandled expression: ...')`) are modelled
by `Option`: `none` means the exception propagates to the caller.
-/

namespace Joeml

/-- Lower identifier node (`{ type: 'lower-identifier', value, location }`).
The grammar's `withLoc` wrapper stores `location().start.offset`; a node
built without `withLoc` has no `location` key, modelled as `none`. -/
structure Identifier where
  value : String
  location : Option Nat
deriving DecidableEq

mutual
/-- Expression nodes of `src/types.ts` (`Application | LetExpression |
IfExpression | NumberLiteral | StringLiteral`).  The runtime discriminant is
a string tag; `other` stands for any value whose `type` tag is outside that
closed set (possible only in hand-constructed trees, which the generator's
final `throw` branch rejects).  Each node's `location` key is `Option Nat`
because some grammar actions do not attach one. -/
inductive Expr where
  | app (name : Identifier) (parameters : List Expr) (location : Option Nat)
  | letE (bindings : List FunctionDeclaration) (body : Expr) (location : Option Nat)
  | ifE (predicate true_expression false_expression : Expr) (location : Option Nat)
  | num (value : String) (location : Option Nat)
  | str (value : String) (location : Option Nat)
  | other (tag : String)

/-- `FunctionDeclaration` of `src/types.ts`: name, parameter identifiers and
a single body expression.  The grammar's `FunctionDeclaration` action builds
the object without `withLoc`, so parser output has `location = none`. -/
inductive FunctionDeclaration where
  | mk (name : Identifier) (parameters : List Identifier) (body : Expr)
      (location : Option Nat)
end

mutual
/-- Structural equality of expression nodes.  Since every parser-produced
node records its own source offsets, two distinct parse-tree nodes are
structurally distinct, so this models JavaScript reference equality (`===`)
on parser output. -/
def Expr.beq (a b : Expr) : Bool :=
  match a, b with
  | .app n ps l, .app n2 ps2 l2 => n == n2 && Expr.beqList ps ps2 && l == l2
  | .letE bs b1 l, .letE bs2 b2 l2 =>
    FunctionDeclaration.beqList bs bs2 && Expr.beq b1 b2 && l == l2
  | .ifE p t f l, .ifE p2 t2 f2 l2 =>
    Expr.beq p p2 && Expr.beq t t2 && Expr.beq f f2 && l == l2
  | .num v l, .num v2 l2 => v == v2 && l == l2
  | .str v l, .str v2 l2 => v == v2 && l == l2
  | .other t, .other t2 => t == t2
  | _, _ => false
termination_by structural a

def FunctionDeclaration.beq (a b : FunctionDeclaration) : Bool :=
  match a, b with
  | .mk n ps b1 l, .mk n2 ps2 b2 l2 =>
    n == n2 && ps == ps2 && Expr.beq b1 b2 && l == l2
termination_by structural a

def Expr.beqList (a b : List Expr) : Bool :=
  match a, b with
  | [], [] => true
  | e :: es, e2 :: es2 => Expr.beq e e2 && Expr.beqList es es2
  | _, _ => false
termination_by structural a

def FunctionDeclaration.beqList (a b : List FunctionDeclaration) : Bool :=
  match a, b with
  | [], [] => true
  | d :: ds, d2 :: ds2 =>
    FunctionDeclaration.beq d d2 && FunctionDeclaration.beqList ds ds2
  | _, _ => false
termination_by structural a
end

instance : BEq Expr := ⟨Expr.beq⟩

instance : BEq FunctionDeclaration := ⟨FunctionDeclaration.beq⟩

def FunctionDeclaration.name : FunctionDeclaration → Identifier
  | .mk n _ _ _ => n

def FunctionDeclaration.parameters : FunctionDeclaration → List Identifier
  | .mk _ ps _ _ => ps

def FunctionDeclaration.body : FunctionDeclaration → Expr
  | .mk _ _ b _ => b

def FunctionDeclaration.location : FunctionDeclaration → Option Nat
  | .mk _ _ _ l => l

/-- Top-level statements (`Start` collects record, union, annotation and
function declarations; the generator keeps only the function declarations). -/
inductive Statement where
  | functionDeclaration (d : FunctionDeclaration)
  | other (tag : String)

/-- `JMLProgram` of `src/types.ts`: the object `{ statements: [...] }`
returned by the grammar's `Start` rule. -/
structure JMLProgram where
  statements : List Statement

/-- The `location` key of an expression node (`none` when absent). -/
def nodeLocation : Expr → Option Nat
  | .app _ _ l => l
  | .letE _ _ l => l
  | .ifE _ _ _ l => l
  | .num _ l => l
  | .str _ l => l
  | .other _ => none

/-! ### Grammar semantic actions (`src/grammar/grammar.jml.pegjs`)

Each `<Rule>Action` function is the semantic action of the production of the
same name, applied to the values of its labelled sub-parses.  Actions that
wrap their result in `withLoc` additionally receive the rule's start offset
(`location().start.offset`, the grammar header sets `onlyOffset = true`). -/

/-- `Identifier` rule action: `withLoc({ type: 'lower-identifier', value: id })`. -/
def identifierAction (id : String) (offset : Nat) : Identifier :=
  ⟨id, some offset⟩

/-- `InfixOperator` rule action: `withLoc({ type: 'lower-identifier', value: op })`. -/
def infixOperatorAction (op : String) (offset : Nat) : Identifier :=
  ⟨op, some offset⟩

/-- `Number` rule action: `withLoc({ type: 'number', value: value })`. -/
def numberAction (value : String) (offset : Nat) : Expr :=
  .num value (some offset)

/-- `String` rule action: `withLoc({ type: 'string', value: value })`. -/
def stringAction (value : String) (offset : Nat) : Expr :=
  .str value (some offset)

/-- `LetExpression` rule action:
`withLoc({ type: 'let-expression', bindings: fns, body: body })`. -/
def letExpressionAction (fns : List FunctionDeclaration) (body : Expr)
    (offset : Nat) : Expr :=
  .letE fns body (some offset)

/-- `IfExpression` rule action.  Unlike its sibling rules it returns the
object WITHOUT `withLoc`, so if-expression nodes carry no location. -/
def ifExpressionAction (pred t f : Expr) : Expr :=
  .ifE pred t f none

/-- `Application` rule action:
`withLoc({ type: 'application', name: name, parameters: operands })`. -/
def applicationAction (name : Identifier) (operands : List Expr)
    (offset : Nat) : Expr :=
  .app name operands (some offset)

/-- `FunctionDeclaration` rule action.  `parameters || []` turns an absent
(optional) parameter list into `[]`; the object is returned WITHOUT
`withLoc`, so function-declaration nodes carry no location. -/
def functionDeclarationAction (name : Identifier)
    (parameters : Option (List Identifier)) (body : Expr) : FunctionDeclaration :=
  .mk name (parameters.getD []) body none

/-- `Expression` rule action.  `expr` is the leading `CallOrOperand`; `rhs`
is the parsed list of `(InfixOperator, CallOrOperand)` continuations in
source order.  The action runs
`rhs.reverse().reduce((acc, r) => ({type:'application', name: r.i,
parameters: [acc, r.r]}), expr)` (and returns `expr` unchanged when `rhs` is
empty, which the fold also does).  The synthesized application objects are
built without `withLoc`. -/
def expressionAction (expr : Expr) (rhs : List (Identifier × Expr)) : Expr :=
  rhs.reverse.foldl (fun acc r => .app r.1 [acc, r.2] none) expr

/-! ### Code generator (`src/generator.ts`) -/

/-- Generation context threaded through the recursion (`interface Ctx`). -/
structure Ctx where
  indent : Nat
  expect_return : Bool := false
  fn : FunctionDeclaration

/-- Names with an entry in the generator's `infixFns` table (its keys, in
source order). -/
def infixFnNames : List String :=
  ["==", "!=", "<=", ">=", "<", ">", "+", "-", "*"]

/-- The temporary introduced by the tail-call rewrite for a parameter:
`$$<parameter>` (the `var $$${id.value}` template). -/
def tempName (s : String) : String := "$$" ++ s

/-- Digit list to numeral. -/
def digitsToNat (ds : List Char) : Nat :=
  ds.foldl (fun n c => 10 * n + (c.toNat - 48)) 0

/-- Models JavaScript `parseInt(v).toString()` as the generator applies it to
number-literal text: the maximal leading digit run is converted to decimal
(dropping leading zeros); with no leading digit `parseInt` gives `NaN`.
Grammar-produced number values are nonempty digit strings, for which this is
exact.  (Sign and whitespace skipping are not replicated: the grammar's
`Number` token admits neither.) -/
def jsParseIntToString (s : String) : String :=
  let ds := s.data.takeWhile (fun c => c.isDigit)
  if ds.isEmpty then "NaN" else toString (digitsToNat ds)

/-- The labeled indefinite loop template of `generateFunction`'s `makeBody`:
`` `\n      ${name}:\n      while (true) {\n         ${body};\n      }` ``. -/
def loopWrap (name body : String) : String :=
  "\n      " ++ name ++ ":\n      while (true) \x7b\n         " ++ body ++ ";\n      \x7d"

/-- `tailCalls(fnName, expr)`: the structural tail-call scan.  It follows
only if-branches and let-bodies; an application is collected iff its name
matches `fnName` (arity is NOT consulted); every other node contributes
nothing. -/
def tailCalls (fnName : String) : Expr → List Expr
  | .app name ps loc =>
    if name.value = fnName then [.app name ps loc] else []
  | .ifE _ t f _ => tailCalls fnName t ++ tailCalls fnName f
  | .letE _ b _ => tailCalls fnName b
  | _ => []

mutual
/-- `generateExpression(ctx, expr)`.  The source dispatches to
`makeFunctionCall` / `makeLetExpression` / `makeIfExpression`; those bodies
are inlined here (and re-exposed under their own names below) so that the
mutual recursion is structural.  The final arm is the source's
`throw new Error('unhandled expression: ...')`. -/
def generateExpression (ctx : Ctx) : Expr → Option String
  | .app name ps loc =>
    -- makeFunctionCall(ctx, fn), fn = { name, parameters: ps, location: loc }
    let tail_calls := tailCalls ctx.fn.name.value ctx.fn.body
    let isTailCall := tail_calls.any (fun tc => tc == Expr.app name ps loc)
    if ctx.fn.name.value = name.value ∧ ctx.fn.parameters.length = ps.length ∧
        isTailCall = true then
      -- loop-continuation rewrite; `_.zipWith(ctx.fn.parameters, fn.parameters, ...)`
      -- (both lists have equal length inside this branch)
      match generateExpressionList { ctx with expect_return := false } ps with
      | none => none
      | some argTexts =>
        let params := String.intercalate "\n\n"
          (List.zipWith
            (fun (id : Identifier) t => "var " ++ tempName id.value ++ " = " ++ t ++ ";")
            ctx.fn.parameters argTexts)
        let assigns := String.intercalate "\n\n"
          (ctx.fn.parameters.map (fun id => id.value ++ " = " ++ tempName id.value ++ ";"))
        some ("\n         " ++ params ++ "\n\n         " ++ assigns ++
          "\n\n         continue " ++ name.value ++ ";\n      ")
    else if ps.length = 0 ∧
        ctx.fn.parameters.any (fun p => p.value == name.value) then
      -- parameter reference, not a function call
      some ((if ctx.expect_return then "return" else "") ++ " " ++ name.value)
    else
      match generateExpressionList { ctx with expect_return := false } ps with
      | none => none
      | some parameter_expressions =>
        let parameters := "(" ++ String.intercalate ", " parameter_expressions ++ ")"
        let function_application :=
          if infixFnNames.contains name.value then
            (parameter_expressions.getD 0 "undefined") ++ " " ++ name.value ++ " " ++
              (parameter_expressions.getD 1 "undefined")
          else name.value ++ parameters
        some ((if ctx.expect_return then "return" else "") ++ " " ++ function_application)
  | .letE bindings body _ =>
    -- makeLetExpression(ctx, let_expr): note that ctx.expect_return is not
    -- consulted; the produced text never carries a return instruction.
    match generateFunctionList ctx bindings with
    | none => none
    | some fnTexts =>
      match generateExpression { ctx with expect_return := false } body with
      | none => none
      | some bodyText =>
        some ("(function () \x7b // let expression\n      " ++
          String.intercalate "\n\n" fnTexts ++
          "\n\n      return (" ++ bodyText ++ ");\n   \x7d)()")
  | .ifE pred t f _ =>
    -- makeIfExpression(ctx, expr)
    if ctx.expect_return then
      match generateExpression { ctx with expect_return := false } pred,
            generateExpression { ctx with expect_return := true } t,
            generateExpression { ctx with expect_return := true } f with
      | some p, some tt, some ff =>
        some ("\n      if (" ++ p ++ ") \x7b\n         " ++ tt ++
          "\n      \x7d else \x7b\n         " ++ ff ++ "\n      \x7d")
      | _, _, _ => none
    else
      match generateExpression ctx pred, generateExpression ctx t,
            generateExpression ctx f with
      | some p, some tt, some ff =>
        some ("\n      " ++ p ++ "\n         ? " ++ tt ++ "\n         : " ++ ff ++ "\n   ")
      | _, _, _ => none
  | .str v _ =>
    some (if ctx.expect_return then "return " ++ v ++ ";" else v)
  | .num v _ =>
    some (if ctx.expect_return then "return " ++ jsParseIntToString v ++ ";"
          else jsParseIntToString v)
  | .other _ => none

/-- `generateFunction(ctx, fn)` with its nested `makeBody` inlined. -/
def generateFunction (ctx : Ctx) : FunctionDeclaration → Option String
  | .mk n params b loc =>
    let tail_calls := tailCalls n.value b
    match generateExpression
        { ctx with expect_return := true, fn := .mk n params b loc } b with
    | none => none
    | some bodyGen =>
      let body := if tail_calls.isEmpty then bodyGen else loopWrap n.value bodyGen
      some ("\n      function " ++ n.value ++ " (" ++
        String.intercalate ", " (params.map (fun x => x.value)) ++
        ") \x7b\n         " ++ body ++ "\n      \x7d")

/-- JavaScript `Array.prototype.map` with `generateExpression`, through which
a thrown exception propagates. -/
def generateExpressionList (ctx : Ctx) : List Expr → Option (List String)
  | [] => some []
  | e :: es =>
    match generateExpression ctx e, generateExpressionList ctx es with
    | some s, some ss => some (s :: ss)
    | _, _ => none

/-- JavaScript `Array.prototype.map` with `generateFunction`, through which a
thrown exception propagates. -/
def generateFunctionList (ctx : Ctx) : List FunctionDeclaration → Option (List String)
  | [] => some []
  | d :: ds =>
    match generateFunction ctx d, generateFunctionList ctx ds with
    | some s, some ss => some (s :: ss)
    | _, _ => none
end

/-- `makeFunctionCall(ctx, fn)` under its source name (inlined into the
`application` arm of `generateExpression` above). -/
def makeFunctionCall (ctx : Ctx) (name : Identifier) (ps : List Expr)
    (loc : Option Nat) : Option String :=
  generateExpression ctx (.app name ps loc)

/-- `makeLetExpression(ctx, let_expr)` under its source name. -/
def makeLetExpression (ctx : Ctx) (bindings : List FunctionDeclaration)
    (body : Expr) (loc : Option Nat) : Option String :=
  generateExpression ctx (.letE bindings body loc)

/-- `makeIfExpression(ctx, expr)` under its source name. -/
def makeIfExpression (ctx : Ctx) (pred t f : Expr) (loc : Option Nat) :
    Option String :=
  generateExpression ctx (.ifE pred t f loc)

/-- First half of `wrapProgram`'s template literal, up to the `${body}` hole:
it injects the `io` buffer and the `print`/`printLn` capability functions. -/
def wrapHead : String :=
  "\nexports.main = function () \x7b\n   const io = \x7b stdout: '' \x7d;\n\n   function print (str) \x7b\n      io.stdout += str;\n   \x7d\n\n   function printLn (str) \x7b\n      io.stdout += str + '\\n';\n   \x7d\n\n   "

/-- Second half of `wrapProgram`'s template literal, after the `${body}`
hole: the invocation harness calling `main()` and returning the `io` buffer. -/
def wrapTail : String :=
  ";\n\n   return function () \x7b\n      main()\n      return io;\n   \x7d;\n\x7d();\n"

/-- `wrapProgram(body)`: the single template literal, split at its `${body}`
hole. -/
def wrapProgram (body : String) : String :=
  wrapHead ++ body ++ wrapTail

/-- The `fn: null` placeholder of `generate`'s context.  `generateFunction`
replaces `fn` before any dereference, so its value is never consulted. -/
def nullFunctionDeclaration : FunctionDeclaration :=
  .mk ⟨"", none⟩ [] (.num "0" none) none

/-- The context `{ indent: 0, fn: null }` built in `generate`
(`expect_return` is absent, i.e. falsy). -/
def genCtx : Ctx :=
  { indent := 0, expect_return := false, fn := nullFunctionDeclaration }

/-- `program.statements.filter(n => n.type === 'function-declaration')`. -/
def programFunctions (p : JMLProgram) : List FunctionDeclaration :=
  p.statements.filterMap (fun s =>
    match s with
    | .functionDeclaration d => some d
    | .other _ => none)

/-- `generate(program)`: one generated function per top-level function
declaration, joined with blank lines and passed to `wrapProgram`. -/
def generate (program : JMLProgram) : Option String :=
  match generateFunctionList genCtx (programFunctions program) with
  | none => none
  | some texts => some (wrapProgram (String.intercalate "\n\n" texts))

/-! ### Derived forms of `generateFunction` and spec-side definitions -/

/-- The body text generated with `expect_return: true` and the declaration
installed as the enclosing function — the argument of `generateFunction`'s
`makeBody` in both of its branches. -/
def straightText (ctx : Ctx) (fn : FunctionDeclaration) : Option String :=
  generateExpression { ctx with expect_return := true, fn := fn } fn.body

/-- The `function <name> (<params>) { ... }` shell that `generateFunction`
wraps around the result of `makeBody`. -/
def fnShell (fn : FunctionDeclaration) (b : String) : String :=
  "\n      function " ++ fn.name.value ++ " (" ++
    String.intercalate ", " (fn.parameters.map (fun x => x.value)) ++
    ") \x7b\n         " ++ b ++ "\n      \x7d"

/-- `generateFunction`'s nested `makeBody()` as a standalone function. -/
def makeBody (ctx : Ctx) (fn : FunctionDeclaration) : Option String :=
  if (tailCalls fn.name.value fn.body).isEmpty then straightText ctx fn
  else (straightText ctx fn).map (loopWrap fn.name.value)

/-- Modelled from the spec: the structural tail-position scan, following
only if-branches and let-bodies, reporting whether a self-call matching the
enclosing function by NAME is found. -/
def specSelfTailCallScan (fnName : String) : Expr → Bool
  | .app name _ _ => name.value == fnName
  | .ifE _ t f _ =>
    specSelfTailCallScan fnName t || specSelfTailCallScan fnName f
  | .letE _ b _ => specSelfTailCallScan fnName b
  | _ => false

/-- Modelled from the claim: the same structural scan, but requiring the
self-call to match the enclosing function by both name AND arity. -/
def specSelfTailCallScanArity (fnName : String) (arity : Nat) : Expr → Bool
  | .app name ps _ => name.value == fnName && ps.length == arity
  | .ifE _ t f _ =>
    specSelfTailCallScanArity fnName arity t || specSelfTailCallScanArity fnName arity f
  | .letE _ b _ => specSelfTailCallScanArity fnName arity b
  | _ => false

/-- Modelled from the spec: the evaluate-all-then-assign-all loop
continuation — every argument text is first bound to the fresh temporary of
its parameter, then every parameter is reassigned from its temporary, then
control jumps back to the loop labeled with the function's name. -/
def specEvalAllThenAssignAll (params : List Identifier) (argTexts : List String)
    (label : String) : String :=
  "\n         " ++
    String.intercalate "\n\n"
      (List.zipWith
        (fun (id : Identifier) t => "var " ++ tempName id.value ++ " = " ++ t ++ ";")
        params argTexts) ++
    "\n\n         " ++
    String.intercalate "\n\n"
      (params.map (fun id => id.value ++ " = " ++ tempName id.value ++ ";")) ++
    "\n\n         continue " ++ label ++ ";\n      "

mutual
/-- An expression is well formed when every node reachable from it has a
discriminant in the closed set {application, let-expression, if-expression,
number, string} — i.e. no `other` node occurs. -/
def wellFormedExpr : Expr → Bool
  | .app _ ps _ => wellFormedExprList ps
  | .letE bs b _ => wellFormedDeclList bs && wellFormedExpr b
  | .ifE p t f _ => wellFormedExpr p && wellFormedExpr t && wellFormedExpr f
  | .num _ _ => true
  | .str _ _ => true
  | .other _ => false

def wellFormedDecl : FunctionDeclaration → Bool
  | .mk _ _ b _ => wellFormedExpr b

def wellFormedExprList : List Expr → Bool
  | [] => true
  | e :: es => wellFormedExpr e && wellFormedExprList es

def wellFormedDeclList : List FunctionDeclaration → Bool
  | [] => true
  | d :: ds => wellFormedDecl d && wellFormedDeclList ds
end

/-- A top-level statement is well formed when any function declaration it
carries is. -/
def wellFormedStatement : Statement → Bool
  | .functionDeclaration d => wellFormedDecl d
  | .other _ => true

/-- The `Identifier` rule's alphabet: `[a-z][A-Za-z0-9_]*`. -/
def isGrammarIdentifier (s : String) : Bool :=
  match s.data with
  | [] => false
  | c :: rest =>
    ('a' ≤ c && c ≤ 'z') &&
      rest.all (fun d =>
        ('a' ≤ d && d ≤ 'z') || ('A' ≤ d && d ≤ 'Z') ||
        ('0' ≤ d && d ≤ '9') || d == '_')

/-- The strings produced by the grammar's `InfixOperator` rule, in source
order. -/
def grammarInfixOperators : List String :=
  ["==", "!=", "<=", ">=", "<", ">", "+", "*", "-"]

/-- The `name.value` at the root of an application node, if any. -/
def rootCallName : Expr → Option String
  | .app n _ _ => some n.value
  | _ => none

/-- Whether `pat` occurs as a contiguous run inside `l`. -/
def hasSubstringChars (pat : List Char) : List Char → Bool
  | [] => pat.isEmpty
  | c :: rest => pat.isPrefixOf (c :: rest) || hasSubstringChars pat rest

/-! ### Concrete parse trees used by the claim theorems -/

/-- Operand `1` of the source text `1 - 2 * 3`. -/
def c1A : Expr := numberAction "1" 0

/-- First infix operator of `1 - 2 * 3`. -/
def c1Op1 : Identifier := infixOperatorAction "-" 2

/-- Operand `2` of `1 - 2 * 3`. -/
def c1B : Expr := numberAction "2" 4

/-- Second infix operator of `1 - 2 * 3`. -/
def c1Op2 : Identifier := infixOperatorAction "*" 6

/-- Operand `3` of `1 - 2 * 3`. -/
def c1C : Expr := numberAction "3" 8

/-- Declaration `f { 1 }` nested in the C2 program. -/
def c2F : FunctionDeclaration :=
  functionDeclarationAction (identifierAction "f" 11) none (numberAction "1" 15)

/-- Body of `main` in `main { let f { 1 } in { f } }` (offsets as parsed
from that source text). -/
def c2Body : Expr :=
  letExpressionAction [c2F] (applicationAction (identifierAction "f" 24) [] 24) 7

/-- The declaration parsed from `main { let f { 1 } in { f } }`. -/
def c2Main : FunctionDeclaration :=
  functionDeclarationAction (identifierAction "main" 0) none c2Body

/-- The declaration parsed from `main { 1 }`. -/
def c3Main : FunctionDeclaration :=
  functionDeclarationAction (identifierAction "main" 0) none (numberAction "1" 7)

/-- The program consisting of the single declaration `main { 1 }`. -/
def c3Prog : JMLProgram := ⟨[.functionDeclaration c3Main]⟩

/-- The declaration parsed from `f x { f x 1 }`: its body is a self-call by
name with mismatched arity (2 arguments against 1 parameter). -/
def c4Bad : FunctionDeclaration :=
  functionDeclarationAction (identifierAction "f" 0) (some [identifierAction "x" 2])
    (applicationAction (identifierAction "f" 6)
      [applicationAction (identifierAction "x" 8) [] 8, numberAction "1" 10] 6)

/-- Predicate `n == 0` of the C5 function (an `Expression`-rule infix chain). -/
def c5Cond : Expr :=
  expressionAction (applicationAction (identifierAction "n" 11) [] 11)
    [(infixOperatorAction "==" 13, numberAction "0" 16)]

/-- Argument `n - 1` of the C5 function's self tail call. -/
def c5Arg : Expr :=
  expressionAction (applicationAction (identifierAction "n" 32) [] 32)
    [(infixOperatorAction "-" 34, numberAction "1" 36)]

/-- The self tail call `f (n - 1)`. -/
def c5Call : Expr :=
  applicationAction (identifierAction "f" 29) [c5Arg] 29

/-- The declaration parsed from `f n { if n == 0 then 0 else f (n - 1) }`. -/
def c5Decl : FunctionDeclaration :=
  functionDeclarationAction (identifierAction "f" 0) (some [identifierAction "n" 2])
    (ifExpressionAction c5Cond (numberAction "0" 23) c5Call)

/-- The declaration parsed from `g x { 0 }`, used as the enclosing function
of the C6 parameter-shadowing witness. -/
def c6Decl : FunctionDeclaration :=
  functionDeclarationAction (identifierAction "g" 0) (some [identifierAction "x" 2])
    (numberAction "0" 6)

/-- The declaration parsed from `main { 2 }`. -/
def c7Main : FunctionDeclaration :=
  functionDeclarationAction (identifierAction "main" 0) none (numberAction "2" 7)

/-- The program consisting of the single declaration `main { 2 }`. -/
def c7Prog : JMLProgram := ⟨[.functionDeclaration c7Main]⟩

/-! ### Claim theorems -/

/-- C1, counterexample: for the two-operator chain `1 - 2 * 3` the
`Expression` rule's action does NOT return the left-associative left-fold
`*( -(1, 2), 3)`: its `rhs.reverse().reduce(...)` produces a different tree
(`-( *(1, 3), 2)`, see the amended theorem). -/
theorem c1_counterexample :
    expressionAction c1A [(c1Op1, c1B), (c1Op2, c1C)] ≠
      Expr.app c1Op2 [Expr.app c1Op1 [c1A, c1B] none, c1C] none := by
  intro h
  have h2 := congrArg rootCallName h
  have hl : rootCallName (expressionAction c1A [(c1Op1, c1B), (c1Op2, c1C)]) =
      some "-" := rfl
  have hr : rootCallName (Expr.app c1Op2 [Expr.app c1Op1 [c1A, c1B] none, c1C] none) =
      some "*" := rfl
  rw [hl, hr] at h2
  exact absurd h2 (by decide)

/-- C1, amended: for every chain `a op1 b op2 c` of two infix operators the
`Expression` rule's action (reverse the operator list, then fold) returns
the tree `op1(op2(a, c), b)` — the first operator at the root over the
second operand, with the second operator applied to the first and third
operands — rather than any left- or right-associative reading. -/
theorem c1_amended (a : Expr) (op1 op2 : Identifier) (b c : Expr) :
    expressionAction a [(op1, b), (op2, c)] =
      Expr.app op1 [Expr.app op2 [a, c] none, b] none := rfl

/-- C2: on the program `main { let f { 1 } in { f } }` the let-expression in
tail position of `main` is emitted WITHOUT a return instruction (the
`let-expression` arm of `generateExpression` never consults
`ctx.expect_return`), so the generated `main` discards the immediately
invoked scope's value instead of returning `1`; a number literal in the same
tail context does receive the `return` prefix. -/
theorem c2_let_tail_position_drops_return :
    generateExpression { indent := 0, expect_return := true, fn := c2Main } c2Main.body =
      some "(function () \x7b // let expression\n      \n      function f () \x7b\n         return 1;\n      \x7d\n\n      return ( f());\n   \x7d)()" ∧
    generateExpression { indent := 0, expect_return := true, fn := c2Main } c2Main.body =
      generateExpression { indent := 0, expect_return := false, fn := c2Main } c2Main.body ∧
    "return".data.isPrefixOf
      ((generateExpression { indent := 0, expect_return := true, fn := c2Main }
        c2Main.body).getD "").data = false ∧
    generateExpression { indent := 0, expect_return := true, fn := c2Main }
      (Expr.num "1" (some 15)) = some "return 1;" := by
  refine ⟨by decide, by decide, by decide, by decide⟩

/-- C8, counterexample: the `IfExpression` and `FunctionDeclaration` rule
actions return their nodes without `withLoc`, so the if-expression node of
`if 1 then 2 else 3` and the declaration node of `main { 1 }` carry no
location. -/
theorem c8_counterexample :
    nodeLocation
      (ifExpressionAction (numberAction "1" 3) (numberAction "2" 10)
        (numberAction "3" 17)) = none ∧
    (functionDeclarationAction (identifierAction "main" 0) none
      (numberAction "1" 7)).location = none := ⟨rfl, rfl⟩

/-- C8, amended: the grammar actions that wrap their result in `withLoc`
(numbers, strings, rule-level applications, let-expressions, identifiers,
infix operators) attach the start offset as the node's location, but the
`IfExpression` and `FunctionDeclaration` actions — and the application nodes
synthesized by the `Expression` rule's infix fold — attach none. -/
theorem c8_amended (v op : String) (k : Nat) (name : Identifier)
    (ops : List Expr) (fns : List FunctionDeclaration)
    (b p t f : Expr) (psOpt : Option (List Identifier)) :
    nodeLocation (numberAction v k) = some k ∧
    nodeLocation (stringAction v k) = some k ∧
    nodeLocation (applicationAction name ops k) = some k ∧
    nodeLocation (letExpressionAction fns b k) = some k ∧
    (identifierAction v k).location = some k ∧
    (infixOperatorAction op k).location = some k ∧
    nodeLocation (ifExpressionAction p t f) = none ∧
    (functionDeclarationAction name psOpt b).location = none ∧
    nodeLocation (expressionAction b [(name, p)]) = none :=
  ⟨rfl, rfl, rfl, rfl, rfl, rfl, rfl, rfl, rfl⟩

/-- C10: no identifier the grammar can produce — a lower identifier over the
alphabet `[a-z][A-Za-z0-9_]*` or one of the `InfixOperator` strings — is
ever equal to a rewrite temporary `$$<parameter>`, because `$` is outside
both alphabets; hence the temporaries introduced by the tail-call loop
rewrite can never collide with (shadow or overwrite) any user-written
parameter, function or let-binding name. -/
theorem c10_temporaries_disjoint_from_source_identifiers (s p : String)
    (h : isGrammarIdentifier s = true ∨ s ∈ grammarInfixOperators) :
    s ≠ tempName p := by
  intro heq
  have hdata : s.data = '$' :: '$' :: p.data := by
    rw [heq]; simp [tempName, String.data_append]
  rcases h with h | h
  · rw [isGrammarIdentifier, hdata] at h
    simp at h
  · simp only [grammarInfixOperators, List.mem_cons, List.not_mem_nil, or_false] at h
    rcases h with rfl | rfl | rfl | rfl | rfl | rfl | rfl | rfl | rfl <;>
      simp at hdata

/-- C10, witness: the grammar identifier `foo` differs from the temporary
`$$foo`. -/
theorem c10_witness : "foo" ≠ tempName "foo" :=
  c10_temporaries_disjoint_from_source_identifiers "foo" "foo" (Or.inl (by decide))

/-- C6: a zero-argument call whose name equals one of the enclosing
function's parameter names is emitted as a bare identifier read of that
parameter, with a `return` prefix exactly when in tail position.  The
branch consults only `ctx.fn.parameters` — no table of declared functions —
so this holds even when a function of the same name exists in scope; and
the loop-continuation rewrite can never fire for such a call, since it
would require the enclosing function to have zero parameters. -/
theorem c6_zero_arg_call_reads_parameter (ctx : Ctx) (name : Identifier)
    (loc : Option Nat)
    (h : ctx.fn.parameters.any (fun p => p.value == name.value) = true) :
    makeFunctionCall ctx name [] loc =
      some ((if ctx.expect_return then "return" else "") ++ " " ++ name.value) := by
  simp only [makeFunctionCall, generateExpression]
  split
  · next hcond =>
    exfalso
    obtain ⟨-, h2, -⟩ := hcond
    rw [List.length_nil, List.length_eq_zero] at h2
    rw [h2] at h
    simp at h
  · next hcond =>
    rw [if_pos ⟨List.length_nil, h⟩]

/-- C6, witness: inside `g x { ... }`, the zero-argument call `x` in tail
position is emitted as `return x`. -/
theorem c6_witness :
    (⟨0, true, c6Decl⟩ : Ctx).fn.parameters.any
      (fun p => p.value == (identifierAction "x" 6).value) = true ∧
    makeFunctionCall ⟨0, true, c6Decl⟩ (identifierAction "x" 6) [] (some 6) =
      some "return x" := by
  refine ⟨by decide, ?_⟩
  have h := c6_zero_arg_call_reads_parameter ⟨0, true, c6Decl⟩
    (identifierAction "x" 6) (some 6) (by decide)
  rw [h]
  decide

set_option maxRecDepth 20000 in
/-- C3, counterexample: `generate` on the one-declaration program
`main { 1 }` does NOT return only the function definition: its output is the
function text wrapped by `wrapProgram`, which injects the `print`/`printLn`
capability object and the invocation harness returning the `io` buffer. -/
theorem c3_counterexample :
    generate c3Prog =
      some (wrapHead ++ "\n      function main () \x7b\n         return 1;\n      \x7d" ++ wrapTail) ∧
    hasSubstringChars "function print (str)".data ((generate c3Prog).getD "").data = true ∧
    hasSubstringChars "return io;".data ((generate c3Prog).getD "").data = true ∧
    (generate c3Prog).getD "" ≠
      "\n      function main () \x7b\n         return 1;\n      \x7d" := by
  refine ⟨by decide, by decide, by decide, by decide⟩

/-- Auxiliary: a successful `generateFunctionList` yields one text per
declaration. -/
theorem generateFunctionList_length (ctx : Ctx) :
    ∀ (ds : List FunctionDeclaration) (ts : List String),
      generateFunctionList ctx ds = some ts → ts.length = ds.length := by
  intro ds
  induction ds with
  | nil =>
    intro ts h
    simp only [generateFunctionList, Option.some.injEq] at h
    rw [← h]
    rfl
  | cons d ds ih =>
    intro ts h
    simp only [generateFunctionList] at h
    rcases hd : generateFunction ctx d with _ | s <;> rw [hd] at h
    · simp at h
    · rcases hds : generateFunctionList ctx ds with _ | ss <;> rw [hds] at h
      · simp at h
      · simp only [Option.some.injEq] at h
        rw [← h]
        simp [ih ss hds]

/-- C3, amended: `generate` maps each top-level function declaration to one
generated function definition, joins them with blank lines, and returns the
result WRAPPED by `wrapProgram` — so every output starts with the injected
`exports.main` harness text (`wrapHead`), which defines the
`print`/`printLn` capability object and returns the captured-output buffer. -/
theorem c3_amended (p : JMLProgram) (s : String) (h : generate p = some s) :
    (generateFunctionList genCtx (programFunctions p)).isSome = true ∧
    ((generateFunctionList genCtx (programFunctions p)).getD []).length =
      (programFunctions p).length ∧
    s = wrapProgram (String.intercalate "\n\n"
      ((generateFunctionList genCtx (programFunctions p)).getD [])) ∧
    wrapHead.data <+: s.data := by
  unfold generate at h
  rcases hg : generateFunctionList genCtx (programFunctions p) with _ | texts <;>
    rw [hg] at h
  · simp at h
  · simp only [Option.some.injEq] at h
    refine ⟨rfl, ?_, ?_, ?_⟩
    · simp [generateFunctionList_length genCtx _ _ hg]
    · rw [← h]; rfl
    · rw [← h]
      simp only [wrapProgram, String.data_append, List.append_assoc]
      exact List.prefix_append _ _

set_option maxRecDepth 20000 in
/-- C3, amended, witness: instantiated on the program `main { 1 }`. -/
theorem c3_amended_witness :
    (generateFunctionList genCtx (programFunctions c3Prog)).isSome = true ∧
    ((generateFunctionList genCtx (programFunctions c3Prog)).getD []).length =
      (programFunctions c3Prog).length ∧
    (wrapHead ++ "\n      function main () \x7b\n         return 1;\n      \x7d" ++ wrapTail) =
      wrapProgram (String.intercalate "\n\n"
        ((generateFunctionList genCtx (programFunctions c3Prog)).getD [])) ∧
    wrapHead.data <+:
      (wrapHead ++ "\n      function main () \x7b\n         return 1;\n      \x7d" ++ wrapTail).data :=
  c3_amended c3Prog _ (by decide)

/-- C5: whenever a call site is rewritten as a loop continuation (name
match, arity match, and membership in the function's structural tail-call
list), the emitted text is exactly the evaluate-all-then-assign-all
schedule: every argument text is first bound to a fresh `$$`-temporary, then
every parameter is reassigned from its temporary, then control continues the
loop labeled with the function's name — so no parameter is overwritten
before all new argument values are computed. -/
theorem c5_rewrite_is_evaluate_all_then_assign_all (ctx : Ctx)
    (name : Identifier) (ps : List Expr) (loc : Option Nat)
    (argTexts : List String)
    (h1 : ctx.fn.name.value = name.value)
    (h2 : ctx.fn.parameters.length = ps.length)
    (h3 : (tailCalls ctx.fn.name.value ctx.fn.body).any
      (fun tc => tc == Expr.app name ps loc) = true)
    (hargs : generateExpressionList { ctx with expect_return := false } ps =
      some argTexts) :
    makeFunctionCall ctx name ps loc =
      some (specEvalAllThenAssignAll ctx.fn.parameters argTexts name.value) := by
  simp only [makeFunctionCall, generateExpression]
  rw [if_pos ⟨h1, h2, h3⟩, hargs]
  rfl

/-- C5, witness: inside `f n { if n == 0 then 0 else f (n - 1) }` the tail
call `f (n - 1)` is rewritten to `var $$n = n - 1; n = $$n; continue f;`. -/
theorem c5_witness :
    (⟨0, true, c5Decl⟩ : Ctx).fn.name.value = (identifierAction "f" 29).value ∧
    (⟨0, true, c5Decl⟩ : Ctx).fn.parameters.length = [c5Arg].length ∧
    (tailCalls (⟨0, true, c5Decl⟩ : Ctx).fn.name.value
      (⟨0, true, c5Decl⟩ : Ctx).fn.body).any
      (fun tc => tc == Expr.app (identifierAction "f" 29) [c5Arg] (some 29)) = true ∧
    generateExpressionList
      { (⟨0, true, c5Decl⟩ : Ctx) with expect_return := false } [c5Arg] =
      some ["  n - 1"] ∧
    makeFunctionCall ⟨0, true, c5Decl⟩ (identifierAction "f" 29) [c5Arg] (some 29) =
      some (specEvalAllThenAssignAll (⟨0, true, c5Decl⟩ : Ctx).fn.parameters
        ["  n - 1"] (identifierAction "f" 29).value) :=
  ⟨by decide, by decide, by decide, by decide,
    c5_rewrite_is_evaluate_all_then_assign_all ⟨0, true, c5Decl⟩
      (identifierAction "f" 29) [c5Arg] (some 29) ["  n - 1"]
      (by decide) (by decide) (by decide) (by decide)⟩

/-- Auxiliary: `(a ++ b).isEmpty = (a.isEmpty && b.isEmpty)`. -/
theorem isEmpty_append_eq {α : Type} (a b : List α) :
    (a ++ b).isEmpty = (a.isEmpty && b.isEmpty) := by
  cases a <;> simp [List.isEmpty]

/-- Auxiliary: the generator's tail-call list is empty exactly when the
name-only structural scan finds nothing (size-bounded form). -/
theorem tailCalls_isEmpty_eq_aux (n : String) :
    ∀ (k : Nat) (e : Expr), sizeOf e ≤ k →
      (tailCalls n e).isEmpty = !(specSelfTailCallScan n e) := by
  intro k
  induction k with
  | zero =>
    intro e he
    exfalso
    cases e <;> simp at he
  | succ k ih =>
    intro e he
    cases e with
    | app name ps loc =>
      by_cases hv : name.value = n
      · simp [tailCalls, specSelfTailCallScan, hv]
      · simp [tailCalls, specSelfTailCallScan, hv]
    | ifE p t f l =>
      simp only [tailCalls, specSelfTailCallScan]
      simp only [Expr.ifE.sizeOf_spec] at he
      rw [isEmpty_append_eq, ih t (by omega), ih f (by omega)]
      cases specSelfTailCallScan n t <;> cases specSelfTailCallScan n f <;> simp
    | letE bs b l =>
      simp only [tailCalls, specSelfTailCallScan]
      simp only [Expr.letE.sizeOf_spec] at he
      exact ih b (by omega)
    | num v l => simp [tailCalls, specSelfTailCallScan]
    | str v l => simp [tailCalls, specSelfTailCallScan]
    | other t => simp [tailCalls, specSelfTailCallScan]

/-- Auxiliary: the generator's tail-call list is empty exactly when the
name-only structural scan finds nothing. -/
theorem tailCalls_isEmpty_eq (n : String) (e : Expr) :
    (tailCalls n e).isEmpty = !(specSelfTailCallScan n e) :=
  tailCalls_isEmpty_eq_aux n (sizeOf e) e le_rfl

set_option maxRecDepth 20000 in
/-- C4, counterexample: for `f x { f x 1 }` — whose only self-call matches
the enclosing function by name but NOT by arity — `generateFunction` still
wraps the body in the labeled indefinite loop, so the wrapping condition is
not "name and arity" as claimed; the name+arity structural scan finds no
tail call, yet the emitted body is the loop form, not the straight-line
return. -/
theorem c4_counterexample :
    generateFunction genCtx c4Bad =
      some "\n      function f (x) \x7b\n         \n      f:\n      while (true) \x7b\n         return f( x, 1);\n      \x7d\n      \x7d" ∧
    hasSubstringChars "while (true)".data
      ((generateFunction genCtx c4Bad).getD "").data = true ∧
    specSelfTailCallScanArity "f" 1 c4Bad.body = false ∧
    makeBody genCtx c4Bad ≠ straightText genCtx c4Bad := by
  refine ⟨by decide, by decide, by decide, by decide⟩

/-- C4, amended: `generateFunction` wraps the generated body in the labeled
indefinite loop if and only if the structural tail-call scan (following only
if-branches and let-bodies) finds a self-call matching the enclosing
function by NAME — arity is not consulted for the wrapping decision (it
governs only whether an individual call site is rewritten into a `continue`).
A function with no name-matching structural tail call is emitted as the
straight-line return of its generated body.  The loop form always differs
from the straight-line form, and the surrounding function shell is
injective, so the two cases produce distinct outputs. -/
theorem c4_loop_wrap_iff_name_only_scan (ctx : Ctx) (fn : FunctionDeclaration) :
    generateFunction ctx fn = (makeBody ctx fn).map (fnShell fn) ∧
    makeBody ctx fn =
      (if specSelfTailCallScan fn.name.value fn.body = true
       then (straightText ctx fn).map (loopWrap fn.name.value)
       else straightText ctx fn) ∧
    (∀ s, straightText ctx fn = some s → loopWrap fn.name.value s ≠ s) ∧
    (∀ b1 b2, fnShell fn b1 = fnShell fn b2 → b1 = b2) := by
  refine ⟨?_, ?_, ?_, ?_⟩
  · cases fn with
    | mk n params b l =>
      simp only [generateFunction, makeBody, straightText, fnShell,
        FunctionDeclaration.name, FunctionDeclaration.parameters,
        FunctionDeclaration.body]
      rcases hg : generateExpression
          { ctx with expect_return := true, fn := .mk n params b l } b with _ | s
      · simp
      · by_cases hc : (tailCalls n.value b).isEmpty <;>
          simp [hc, fnShell, FunctionDeclaration.name, FunctionDeclaration.parameters]
  · rw [makeBody, tailCalls_isEmpty_eq]
    cases hs : specSelfTailCallScan fn.name.value fn.body <;> simp [hs]
  · intro s hs heq
    have hlen := congrArg String.length heq
    simp only [loopWrap, String.length_append,
      show ("\n      " : String).length = 7 from rfl,
      show (":\n      while (true) \x7b\n         " : String).length = 32 from rfl,
      show (";\n      \x7d" : String).length = 9 from rfl] at hlen
    omega
  · intro b1 b2 hsh
    have hd := congrArg String.data hsh
    simp only [fnShell, String.data_append, List.append_assoc] at hd
    have h1 := List.append_cancel_left hd
    have h2 := List.append_cancel_left h1
    have h3 := List.append_cancel_left h2
    have h4 := List.append_cancel_left h3
    have h5 := List.append_cancel_left h4
    exact String.ext (List.append_cancel_right h5)

/-- C4, witness: for `f x { f x 1 }` the name-only scan fires, so the body
is emitted loop-wrapped inside the function shell; the loop wrap changes the
straight-line body text. -/
theorem c4_witness :
    specSelfTailCallScan c4Bad.name.value c4Bad.body = true ∧
    makeBody genCtx c4Bad =
      (straightText genCtx c4Bad).map (loopWrap c4Bad.name.value) ∧
    generateFunction genCtx c4Bad = (makeBody genCtx c4Bad).map (fnShell c4Bad) ∧
    loopWrap c4Bad.name.value "return f( x, 1)" ≠ "return f( x, 1)" := by
  have h := c4_loop_wrap_iff_name_only_scan genCtx c4Bad
  refine ⟨by decide, ?_, h.1, h.2.2.1 "return f( x, 1)" (by decide)⟩
  rw [h.2.1, if_pos (by decide)]

/-- Auxiliary: on well-formed input (no discriminant outside the closed
set), every generator entry point succeeds — size-bounded form for the
mutual induction. -/
theorem generateTotalAux :
    ∀ n : Nat,
      (∀ (ctx : Ctx) (e : Expr), sizeOf e ≤ n → wellFormedExpr e = true →
        (generateExpression ctx e).isSome = true) ∧
      (∀ (ctx : Ctx) (d : FunctionDeclaration), sizeOf d ≤ n →
        wellFormedDecl d = true → (generateFunction ctx d).isSome = true) ∧
      (∀ (ctx : Ctx) (es : List Expr), sizeOf es ≤ n →
        wellFormedExprList es = true → (generateExpressionList ctx es).isSome = true) ∧
      (∀ (ctx : Ctx) (ds : List FunctionDeclaration), sizeOf ds ≤ n →
        wellFormedDeclList ds = true → (generateFunctionList ctx ds).isSome = true) := by
  intro n
  induction n using Nat.strong_induction_on with
  | _ n ih =>
    refine ⟨?_, ?_, ?_, ?_⟩
    · intro ctx e he hwf
      cases e with
      | app name ps loc =>
        have hps : sizeOf ps < sizeOf (Expr.app name ps loc) := by simp; omega
        have hlist := (ih (sizeOf ps) (lt_of_lt_of_le hps he)).2.2.1
          { ctx with expect_return := false } ps le_rfl
          (by simpa [wellFormedExpr] using hwf)
        obtain ⟨ts, hts⟩ := Option.isSome_iff_exists.mp hlist
        simp only [generateExpression, hts]
        split
        · simp
        · split <;> simp
      | letE bs b loc =>
        have hbs : sizeOf bs < sizeOf (Expr.letE bs b loc) := by simp; omega
        have hb : sizeOf b < sizeOf (Expr.letE bs b loc) := by simp; omega
        simp only [wellFormedExpr, Bool.and_eq_true] at hwf
        have h1 := (ih _ (lt_of_lt_of_le hbs he)).2.2.2 ctx bs le_rfl hwf.1
        have h2 := (ih _ (lt_of_lt_of_le hb he)).1
          { ctx with expect_return := false } b le_rfl hwf.2
        obtain ⟨ts, hts⟩ := Option.isSome_iff_exists.mp h1
        obtain ⟨bt, hbt⟩ := Option.isSome_iff_exists.mp h2
        simp [generateExpression, hts, hbt]
      | ifE p t f loc =>
        have hp : sizeOf p < sizeOf (Expr.ifE p t f loc) := by simp; omega
        have ht : sizeOf t < sizeOf (Expr.ifE p t f loc) := by simp; omega
        have hf : sizeOf f < sizeOf (Expr.ifE p t f loc) := by simp; omega
        simp only [wellFormedExpr, Bool.and_eq_true] at hwf
        by_cases hr : ctx.expect_return
        · obtain ⟨sp, hsp⟩ := Option.isSome_iff_exists.mp
            ((ih _ (lt_of_lt_of_le hp he)).1 { ctx with expect_return := false }
              p le_rfl hwf.1.1)
          obtain ⟨st, hst⟩ := Option.isSome_iff_exists.mp
            ((ih _ (lt_of_lt_of_le ht he)).1 { ctx with expect_return := true }
              t le_rfl hwf.1.2)
          obtain ⟨sf, hsf⟩ := Option.isSome_iff_exists.mp
            ((ih _ (lt_of_lt_of_le hf he)).1 { ctx with expect_return := true }
              f le_rfl hwf.2)
          simp [generateExpression, hr, hsp, hst, hsf]
        · obtain ⟨sp, hsp⟩ := Option.isSome_iff_exists.mp
            ((ih _ (lt_of_lt_of_le hp he)).1 ctx p le_rfl hwf.1.1)
          obtain ⟨st, hst⟩ := Option.isSome_iff_exists.mp
            ((ih _ (lt_of_lt_of_le ht he)).1 ctx t le_rfl hwf.1.2)
          obtain ⟨sf, hsf⟩ := Option.isSome_iff_exists.mp
            ((ih _ (lt_of_lt_of_le hf he)).1 ctx f le_rfl hwf.2)
          simp [generateExpression, hr, hsp, hst, hsf]
      | num v loc => simp [generateExpression]
      | str v loc => simp [generateExpression]
      | other tag => simp [wellFormedExpr] at hwf
    · intro ctx d hd hwf
      cases d with
      | mk n params b l =>
        have hb : sizeOf b < sizeOf (FunctionDeclaration.mk n params b l) := by
          simp; omega
        have h1 := (ih _ (lt_of_lt_of_le hb hd)).1
          { ctx with expect_return := true, fn := .mk n params b l } b le_rfl
          (by simpa [wellFormedDecl] using hwf)
        obtain ⟨bt, hbt⟩ := Option.isSome_iff_exists.mp h1
        simp [generateFunction, hbt]
    · intro ctx es hes hwf
      cases es with
      | nil => simp [generateExpressionList]
      | cons e rest =>
        have h1 : sizeOf e < sizeOf (e :: rest) := by simp; omega
        have h2 : sizeOf rest < sizeOf (e :: rest) := by simp
        simp only [wellFormedExprList, Bool.and_eq_true] at hwf
        obtain ⟨s1, hs1⟩ := Option.isSome_iff_exists.mp
          ((ih _ (lt_of_lt_of_le h1 hes)).1 ctx e le_rfl hwf.1)
        obtain ⟨s2, hs2⟩ := Option.isSome_iff_exists.mp
          ((ih _ (lt_of_lt_of_le h2 hes)).2.2.1 ctx rest le_rfl hwf.2)
        simp [generateExpressionList, hs1, hs2]
    · intro ctx ds hds hwf
      cases ds with
      | nil => simp [generateFunctionList]
      | cons d rest =>
        have h1 : sizeOf d < sizeOf (d :: rest) := by simp; omega
        have h2 : sizeOf rest < sizeOf (d :: rest) := by simp
        simp only [wellFormedDeclList, Bool.and_eq_true] at hwf
        obtain ⟨s1, hs1⟩ := Option.isSome_iff_exists.mp
          ((ih _ (lt_of_lt_of_le h1 hds)).2.1 ctx d le_rfl hwf.1)
        obtain ⟨s2, hs2⟩ := Option.isSome_iff_exists.mp
          ((ih _ (lt_of_lt_of_le h2 hds)).2.2.2 ctx rest le_rfl hwf.2)
        simp [generateFunctionList, hs1, hs2]

/-- Auxiliary: a program whose statements are all well formed yields a well
formed declaration list. -/
theorem wellFormed_programFunctions (p : JMLProgram)
    (h : p.statements.all wellFormedStatement = true) :
    wellFormedDeclList (programFunctions p) = true := by
  have aux : ∀ ss : List Statement, ss.all wellFormedStatement = true →
      wellFormedDeclList (ss.filterMap (fun s =>
        match s with
        | .functionDeclaration d => some d
        | .other _ => none)) = true := by
    intro ss
    induction ss with
    | nil => intro _; rfl
    | cons s rest ih =>
      intro h2
      simp only [List.all_cons, Bool.and_eq_true] at h2
      cases s with
      | functionDeclaration d =>
        simp only [List.filterMap_cons]
        simp [wellFormedDeclList, ih h2.2]
        simpa [wellFormedStatement] using h2.1
      | other tag =>
        simp only [List.filterMap_cons]
        exact ih h2.2
  exact aux p.statements h

/-- C7: `generateExpression` succeeds on every expression all of whose nodes
carry a discriminant from the closed set {application, let-expression,
if-expression, number, string} (`wellFormedExpr`); it throws (`none`)
exactly on a node whose discriminant lies outside that set; and consequently
`generate` never fails on a well-formed program. -/
theorem c7_generator_total_on_closed_discriminants :
    (∀ (ctx : Ctx) (e : Expr), wellFormedExpr e = true →
      (generateExpression ctx e).isSome = true) ∧
    (∀ (ctx : Ctx) (tag : String), generateExpression ctx (Expr.other tag) = none) ∧
    (∀ p : JMLProgram, p.statements.all wellFormedStatement = true →
      (generate p).isSome = true) := by
  refine ⟨fun ctx e hwf => (generateTotalAux (sizeOf e)).1 ctx e le_rfl hwf,
    fun ctx tag => rfl, fun p hp => ?_⟩
  have h := (generateTotalAux (sizeOf (programFunctions p))).2.2.2 genCtx
    (programFunctions p) le_rfl (wellFormed_programFunctions p hp)
  obtain ⟨ts, hts⟩ := Option.isSome_iff_exists.mp h
  simp [generate, hts]

/-- C7, witness: a number generates successfully, an out-of-set node throws,
and the program `main { 2 }` generates successfully. -/
theorem c7_witness :
    (generateExpression genCtx (Expr.num "1" none)).isSome = true ∧
    generateExpression genCtx (Expr.other "record") = none ∧
    (generate c7Prog).isSome = true :=
  ⟨c7_generator_total_on_closed_discriminants.1 genCtx _ (by decide),
   c7_generator_total_on_closed_discriminants.2.1 genCtx "record",
   c7_generator_total_on_closed_discriminants.2.2 c7Prog (by decide)⟩

end Joeml
